import Mathlib

/-!
Verification development for the trajectory-analysis helpers of
LibDegorasSLR (`Helper_Plotting_Analysis.py`): the projected exclusion-zone
boundary generator (`gen_projected_circle` together with
`plot_full_coverage_circle`) and the elevation-track segmentation and
culmination helpers (`plot_ascending_descending_segments`,
`plot_track_culmination`).

The embedding is shallow: angles are real numbers (the projection code uses
trigonometry), elevation samples for the segmentation code are rationals
(the code only subtracts and compares them), Python list indexing that can
raise `IndexError`/`ValueError` is modelled by `Option` (`none` = the call
raises), and the matplotlib drawing calls are modelled by returning the
numeric data that would be drawn.
-/

/-- Model of `numpy.linspace(a, b, n)`: `n` evenly spaced values from `a`
to `b`, endpoints included (for `n ≥ 2` the step is `(b - a)/(n - 1)`;
`n = 1` gives `[a]`, `n = 0` gives the empty list). -/
noncomputable def linspace (a b : ℝ) (n : ℕ) : List ℝ :=
  if n = 0 then []
  else if n = 1 then [a]
  else (List.range n).map (fun i : ℕ => a + (b - a) * (i : ℝ) / ((n - 1 : ℕ) : ℝ))

/-- Model of Python's float modulo `a % b` (result has the sign of `b`,
here used with `b = 360`). -/
noncomputable def pymod (a b : ℝ) : ℝ := a - b * ⌊a / b⌋

/-- Body of the zenith-adjustment loop of `gen_projected_circle`: a point
`(azimuth, elevation)` with `elevation > 90` is replaced by
`((azimuth + 180) % 360, 180 - elevation)`; other points are unchanged. -/
noncomputable def reflect_point (p : ℝ × ℝ) : ℝ × ℝ :=
  if 90 < p.2 then (pymod (p.1 + 180) 360, 180 - p.2) else p

/-- Model of `plot_full_coverage_circle(ax, radius_deg, points, color)`:
the list of `(angle, radius)` pairs drawn on the polar axis, namely
`points` angles evenly spaced over `[0, 2*pi]` at the constant radial
coordinate `90 - radius_deg`. -/
noncomputable def plot_full_coverage_circle (radius_deg : ℝ) (points : ℕ) :
    List (ℝ × ℝ) :=
  (linspace 0 (2 * Real.pi) points).map (fun t => (t, 90 - radius_deg))

/-- Model of `gen_projected_circle(ax, x_deg, y_deg, r_deg, ..., points, ...)`.
When `ceil(y_deg) + r_deg >= 90` the function draws the full-coverage
circle and returns with no value (`none`); otherwise it returns the pair
`(xvec, yvec)` of sampled azimuths and elevations after the per-point
zenith adjustment. -/
noncomputable def gen_projected_circle (x_deg y_deg r_deg : ℝ) (points : ℕ) :
    Option (List ℝ × List ℝ) :=
  if 90 ≤ (⌈y_deg⌉ : ℝ) + r_deg then none
  else
    let angle := linspace 0 (2 * Real.pi) points
    let xvec := angle.map (fun t => Real.cos t * r_deg + x_deg)
    let yvec := angle.map (fun t => Real.sin t * r_deg + y_deg)
    let adjusted := (xvec.zip yvec).map reflect_point
    some (adjusted.map Prod.fst, adjusted.map Prod.snd)

/-- First difference of the elevation sequence, as built by
`elevation_diff = [els[i] - els[i-1] for i in range(1, len(els))]`. -/
def elevationDiff (els : List ℚ) : List ℚ :=
  List.zipWith (fun a b => a - b) els.tail els

/-- Test `i == 0 or elevation_diff[i-1] <= 0` of the segmentation loop,
with `none` standing for `i == 0` (no previous diff). -/
def prevNonpos : Option ℚ → Bool
  | none => true
  | some p => decide (p ≤ 0)

/-- Test `i == 0 or elevation_diff[i-1] >= 0` of the segmentation loop,
with `none` standing for `i == 0` (no previous diff). -/
def prevNonneg : Option ℚ → Bool
  | none => true
  | some p => decide (0 ≤ p)

/-- The `for i, diff in enumerate(elevation_diff)` loop of
`plot_ascending_descending_segments`, carrying the previous diff (the
loop reads `elevation_diff[i-1]`), the current index `i`, the mutable
`segment_start` and the `ascending_segments` accumulator.  The loop never
appends to `descending_segments`, so that list is not part of the state.
Returns the final `(segment_start, ascending_segments)`. -/
def segLoop : Option ℚ → ℕ → ℕ → List (ℕ × ℕ) → List ℚ → ℕ × List (ℕ × ℕ)
  | _, _, segStart, asc, [] => (segStart, asc)
  | prev, i, segStart, asc, d :: rest =>
    if 0 < d then
      if prevNonpos prev then segLoop (some d) (i + 1) i asc rest
      else segLoop (some d) (i + 1) segStart asc rest
    else if d < 0 then
      if prevNonneg prev then
        segLoop (some d) (i + 1) i
          (if 1 < i - segStart then asc ++ [(segStart, i)] else asc) rest
      else segLoop (some d) (i + 1) segStart asc rest
    else segLoop (some d) (i + 1) segStart asc rest

/-- Model of `plot_ascending_descending_segments(ax, azs, els)`: the pair
`(ascending_segments, descending_segments)` of index ranges the function
plots, or `none` when the unconditional `elevation_diff[-1]` access after
the loop raises `IndexError` (trajectory of length ≤ 1, empty diff). -/
def plot_ascending_descending_segments (track_elevations : List ℚ) :
    Option (List (ℕ × ℕ) × List (ℕ × ℕ)) :=
  let diffs := elevationDiff track_elevations
  let final := segLoop none 0 0 [] diffs
  match diffs.getLast? with
  | none => none
  | some last =>
    if 0 < last then
      if 1 < diffs.length - final.1 then
        some (final.2 ++ [(final.1, diffs.length)], [])
      else some (final.2, [])
    else if last < 0 then
      if 1 < diffs.length - final.1 then
        some (final.2, [(final.1, diffs.length)])
      else some (final.2, [])
    else some (final.2, [])

/-- Maximum elevation of a trajectory (`els[np.argmax(els)]`; meaningful
for non-empty input, the only case in which the code reaches it). -/
def maxEl (els : List ℚ) : ℚ := els.foldl max els.headI

/-- Model of `plot_track_culmination(ax, azs, els, ...)` (the script calls
it with `len(azs) = len(els)`): `none` when `np.argmax` raises on an empty
input; otherwise the list of sample ranges the function draws.  With more
than one maximizing index it draws, for each maximizing index `idx` such
that `idx + 1` is also maximizing, the two-sample line `els[idx:idx+2]`,
modelled as the range `(idx, idx + 2)`; with a unique maximizing index it
scatters that single sample, modelled as `(idx, idx + 1)`. -/
def plot_track_culmination (els : List ℚ) : Option (List (ℕ × ℕ)) :=
  if els.isEmpty then none
  else
    let max_el := maxEl els
    let max_idxs := (List.range els.length).filter (fun i => els.getD i 0 = max_el)
    if 1 < max_idxs.length then
      some (((max_idxs.filter
          (fun idx => idx < els.length - 1 ∧ (idx + 1) ∈ max_idxs)).map
        (fun idx => (idx, idx + 2))))
    else some [(max_idxs.headI, max_idxs.headI + 1)]

/-- Every segment in the `ascending_segments` accumulator of the loop spans
at least two diff entries, provided the segments already accumulated do:
each append happens under the guard `i - segment_start > 1`. -/
lemma segLoop_spans (l : List ℚ) : ∀ (prev : Option ℚ) (i s : ℕ)
    (asc : List (ℕ × ℕ)), (∀ se ∈ asc, se.1 + 2 ≤ se.2) →
    ∀ se ∈ (segLoop prev i s asc l).2, se.1 + 2 ≤ se.2 := by
  induction l with
  | nil =>
    intro prev i s asc h
    simpa [segLoop] using h
  | cons d rest ih =>
    intro prev i s asc h
    simp only [segLoop]
    split_ifs with h1 h2 h3 h4 h5 <;> apply ih <;> intro se hse
    · exact h se hse
    · exact h se hse
    · rcases List.mem_append.mp hse with hse' | hse'
      · exact h se hse'
      · have : se = (s, i) := by simpa using hse'
        subst this
        omega
    · exact h se hse
    · exact h se hse
    · exact h se hse

/-- C7: every emitted ascending or descending segment `(s, e)` satisfies
`s + 2 ≤ e`: it spans at least 2 diff entries (so the underlying run
touches at least 3 trajectory samples), and runs spanning a single diff
entry are dropped by the `> 1` guards. -/
theorem C7_min_segment_span : ∀ (els : List ℚ) (asc desc : List (ℕ × ℕ)),
    plot_ascending_descending_segments els = some (asc, desc) →
    ∀ se ∈ asc ++ desc, se.1 + 2 ≤ se.2 := by
  intro els asc desc h se hse
  have hinv := segLoop_spans (elevationDiff els) none 0 0 [] (by simp)
  simp only [plot_ascending_descending_segments] at h
  cases hlast : (elevationDiff els).getLast? with
  | none => rw [hlast] at h; simp at h
  | some last =>
    rw [hlast] at h
    simp only [] at h
    split_ifs at h with h1 h2 h3 h4 <;>
        rw [Option.some.injEq, Prod.mk.injEq] at h <;>
        obtain ⟨ha, hd⟩ := h <;> subst ha <;> subst hd
    · rcases List.mem_append.mp hse with hm | hm
      · rcases List.mem_append.mp hm with hm' | hm'
        · exact hinv se hm'
        · have : se = ((segLoop none 0 0 [] (elevationDiff els)).1,
              (elevationDiff els).length) := by simpa using hm'
          subst this
          omega
      · simp at hm
    · rcases List.mem_append.mp hse with hm | hm
      · exact hinv se hm
      · simp at hm
    · rcases List.mem_append.mp hse with hm | hm
      · exact hinv se hm
      · have : se = ((segLoop none 0 0 [] (elevationDiff els)).1,
            (elevationDiff els).length) := by simpa using hm
        subst this
        omega
    · rcases List.mem_append.mp hse with hm | hm
      · exact hinv se hm
      · simp at hm
    · rcases List.mem_append.mp hse with hm | hm
      · exact hinv se hm
      · simp at hm

/-- Witness for C7 on the spec's worked example. -/
theorem C7_min_segment_span_witness :
    plot_ascending_descending_segments [10, 20, 30, 30, 20, 10] =
      some ([(0, 3)], [(3, 5)]) ∧
    ∀ se ∈ [((0 : ℕ), (3 : ℕ))] ++ [(3, 5)], se.1 + 2 ≤ se.2 :=
  ⟨by norm_num [plot_ascending_descending_segments, elevationDiff, segLoop,
      prevNonpos, prevNonneg],
   C7_min_segment_span [10, 20, 30, 30, 20, 10] [(0, 3)] [(3, 5)]
    (by norm_num [plot_ascending_descending_segments, elevationDiff, segLoop,
      prevNonpos, prevNonneg])⟩

/-- C3 as stated is false: on `[10, 20, 30, 30, 20, 10]` the descending
segment is reported as `(3, 5)` — the end index is the diff-sequence
length, so the plotted slice excludes the final sample — not `(3, 6)`. -/
theorem C3_counterexample :
    plot_ascending_descending_segments [10, 20, 30, 30, 20, 10] ≠
      some ([(0, 3)], [(3, 6)]) := by
  norm_num [plot_ascending_descending_segments, elevationDiff, segLoop,
    prevNonpos, prevNonneg]

/-- C3 amended: on elevations `[10, 20, 30, 30, 20, 10]` the code reports
one ascending segment `(0, 3)`, one descending segment `(3, 5)` (not
`(3, 6)`: the final sample is excluded), and one culmination plateau
segment `(2, 4)` covering the tied maxima at indices 2 and 3. -/
theorem C3_example_segmentation :
    plot_ascending_descending_segments [10, 20, 30, 30, 20, 10] =
      some ([(0, 3)], [(3, 5)]) ∧
    plot_track_culmination [10, 20, 30, 30, 20, 10] = some [(2, 4)] := by
  constructor
  · norm_num [plot_ascending_descending_segments, elevationDiff, segLoop,
      prevNonpos, prevNonneg]
  · decide

/-- C4: on `[30, 20, 10, 20, 30, 40]` the maximal strictly-descending run
over diff entries 0 and 1 (samples 0..2) closes by a sign change back to
positive, yet the returned descending list is empty — the loop body never
appends to `descending_segments`; only a run still open when the sequence
ends can be reported as descending. -/
theorem C4_mid_sequence_descending_dropped :
    plot_ascending_descending_segments [30, 20, 10, 20, 30, 40] =
      some ([(2, 5)], []) := by
  norm_num [plot_ascending_descending_segments, elevationDiff, segLoop,
    prevNonpos, prevNonneg]

/-- C10: a one-sample trajectory yields an empty diff sequence, the loop
body never runs, and the unconditional `elevation_diff[-1]` access after
the loop raises `IndexError` (modelled as `none`) instead of returning
empty segment lists. -/
theorem C10_single_sample_raises : ∀ els : List ℚ, els.length = 1 →
    plot_ascending_descending_segments els = none := by
  intro els h
  match els, h with
  | [e], _ =>
    simp [plot_ascending_descending_segments, elevationDiff]

/-- Witness for C10 at the one-sample trajectory `[5]`. -/
theorem C10_single_sample_raises_witness :
    plot_ascending_descending_segments [(5 : ℚ)] = none :=
  C10_single_sample_raises [5] rfl

/-- C5 as stated is false: on `[0, 5, 0, 5, 0]` the maximum 5 is attained
at the two isolated indices 1 and 3, yet the multi-maximum branch draws
only adjacent pairs of maximizing indices, so nothing at all is reported. -/
theorem C5_counterexample :
    ([(0 : ℚ), 5, 0, 5, 0].getD 1 0 = maxEl [0, 5, 0, 5, 0] ∧
     [(0 : ℚ), 5, 0, 5, 0].getD 3 0 = maxEl [0, 5, 0, 5, 0]) ∧
    plot_track_culmination [0, 5, 0, 5, 0] = some [] := by decide

/-- C5 amended: in the multi-maximum case only adjacent pairs of tied
maximum indices are reported: whenever samples `i` and `i + 1` both attain
the maximum elevation, the two-sample range `(i, i + 2)` appears in the
output, so a plateau of length `L ≥ 2` contributes its `L - 1`
adjacent-pair ranges; isolated tied maxima are silently dropped. -/
theorem C5_adjacent_maxima_reported : ∀ (els : List ℚ) (i : ℕ),
    i + 1 < els.length → els.getD i 0 = maxEl els →
    els.getD (i + 1) 0 = maxEl els →
    ∀ l, plot_track_culmination els = some l → (i, i + 2) ∈ l := by
  intro els i hlen hi hi1 l hl
  have hne : ¬ els.isEmpty = true := by
    cases els with
    | nil => simp at hlen
    | cons a t => simp
  simp only [plot_track_culmination, if_neg hne] at hl
  have hiM : i ∈ (List.range els.length).filter
      (fun j => els.getD j 0 = maxEl els) := by
    rw [List.mem_filter, List.mem_range]
    exact ⟨by omega, by simpa using hi⟩
  have hi1M : i + 1 ∈ (List.range els.length).filter
      (fun j => els.getD j 0 = maxEl els) := by
    rw [List.mem_filter, List.mem_range]
    exact ⟨by omega, by simpa using hi1⟩
  have hlen2 : 1 < ((List.range els.length).filter
      (fun j => els.getD j 0 = maxEl els)).length := by
    rcases hM : (List.range els.length).filter
        (fun j => els.getD j 0 = maxEl els) with _ | ⟨a, _ | ⟨b, t⟩⟩
    · rw [hM] at hiM; simp at hiM
    · rw [hM] at hiM hi1M
      simp at hiM hi1M
      omega
    · simp
  rw [if_pos hlen2, Option.some.injEq] at hl
  subst hl
  rw [List.mem_map]
  refine ⟨i, ?_, rfl⟩
  rw [List.mem_filter]
  refine ⟨hiM, ?_⟩
  simp only [decide_eq_true_eq]
  exact ⟨by omega, hi1M⟩

/-- Witness for C5 (amended) on the plateau trajectory `[10, 20, 20, 10]`. -/
theorem C5_adjacent_maxima_reported_witness :
    plot_track_culmination [(10 : ℚ), 20, 20, 10] = some [(1, 3)] ∧
    (1, 3) ∈ [((1 : ℕ), (3 : ℕ))] :=
  ⟨by decide,
   C5_adjacent_maxima_reported [10, 20, 20, 10] 1 (by decide) (by decide)
    (by decide) [(1, 3)] (by decide)⟩

/-- While the previous diff is strictly positive and the incoming diffs are
strictly positive, the loop only advances the index: `segment_start` and
the accumulator are untouched, and the carried previous diff stays
strictly positive. -/
lemma segLoop_pos_run (l : List ℚ) : ∀ (rest : List ℚ) (p : ℚ) (i s : ℕ)
    (asc : List (ℕ × ℕ)), 0 < p → (∀ x ∈ l, 0 < x) →
    ∃ p', 0 < p' ∧
      segLoop (some p) i s asc (l ++ rest) =
        segLoop (some p') (i + l.length) s asc rest := by
  induction l with
  | nil =>
    intro rest p i s asc hp _
    exact ⟨p, hp, by simp⟩
  | cons d t ih =>
    intro rest p i s asc hp hl
    have hd : 0 < d := hl d (by simp)
    have hnp : prevNonpos (some p) = false := by
      simp only [prevNonpos, decide_eq_false_iff_not]
      exact not_le.mpr hp
    have step : segLoop (some p) i s asc ((d :: t) ++ rest) =
        segLoop (some d) (i + 1) s asc (t ++ rest) := by
      rw [List.cons_append]
      simp only [segLoop, if_pos hd, hnp]
      simp
    obtain ⟨p', hp', heq⟩ := ih rest d (i + 1) s asc hd
      (fun x hx => hl x (List.mem_cons_of_mem d hx))
    have harith : i + 1 + t.length = i + (d :: t).length := by
      simp [List.length_cons]
      omega
    exact ⟨p', hp', by rw [step, heq, harith]⟩

/-- A zero diff takes neither the `diff > 0` nor the `diff < 0` branch:
the loop just advances, carrying `0` as the new previous diff. -/
lemma segLoop_zero_step (prev : Option ℚ) (i s : ℕ) (asc : List (ℕ × ℕ))
    (rest : List ℚ) :
    segLoop prev i s asc ((0 : ℚ) :: rest) = segLoop (some 0) (i + 1) s asc rest := by
  simp [segLoop]

/-- At the first diff (`i == 0`, no previous diff) a positive diff opens a
run: `segment_start` is set to the current index. -/
lemma segLoop_none_pos_step (d : ℚ) (hd : 0 < d) (i s : ℕ)
    (asc : List (ℕ × ℕ)) (rest : List ℚ) :
    segLoop none i s asc (d :: rest) = segLoop (some d) (i + 1) i asc rest := by
  simp [segLoop, if_pos hd, prevNonpos]

/-- A positive diff whose previous diff is `0` RESETS `segment_start` to
the current index: the test `elevation_diff[i-1] <= 0` also accepts an
exactly-zero previous diff. -/
lemma segLoop_zeroprev_pos_step (d : ℚ) (hd : 0 < d) (i s : ℕ)
    (asc : List (ℕ × ℕ)) (rest : List ℚ) :
    segLoop (some 0) i s asc (d :: rest) = segLoop (some d) (i + 1) i asc rest := by
  simp [segLoop, if_pos hd, prevNonpos]

/-- C8 amended: a zero diff itself takes no branch, but it does reset the
run: for every trajectory whose diff sequence is strictly positive diffs,
then a single zero diff, then at least two further strictly positive
diffs, the positive diff right after the zero resets `segment_start`
(the `elevation_diff[i-1] <= 0` test accepts zero), so the samples before
the zero are dropped and the single reported ascending run starts just
after the zero diff. -/
theorem C8_zero_diff_resets_start : ∀ (els ps qs : List ℚ),
    elevationDiff els = ps ++ 0 :: qs →
    (∀ p ∈ ps, 0 < p) → (∀ q ∈ qs, 0 < q) → 2 ≤ qs.length →
    plot_ascending_descending_segments els =
      some ([(ps.length + 1, ps.length + 1 + qs.length)], []) := by
  intro els ps qs hdiff hps hqs hlen
  rcases qs with _ | ⟨q, qs'⟩
  · simp at hlen
  have hq : 0 < q := hqs q (by simp)
  have key1 : segLoop none 0 0 [] (ps ++ 0 :: q :: qs') =
      segLoop (some 0) (ps.length + 1) 0 [] (q :: qs') := by
    rcases ps with _ | ⟨p, ps'⟩
    · rw [List.nil_append, segLoop_zero_step]
      simp
    · have hp : 0 < p := hps p (by simp)
      rw [List.cons_append, segLoop_none_pos_step p hp]
      obtain ⟨p', hp', heq⟩ := segLoop_pos_run ps' (0 :: q :: qs') p 1 0 []
        hp (fun x hx => hps x (List.mem_cons_of_mem p hx))
      rw [heq, segLoop_zero_step]
      have : 1 + ps'.length + 1 = (p :: ps').length + 1 := by simp; omega
      rw [this]
  have key2 : segLoop (some 0) (ps.length + 1) 0 [] (q :: qs') =
      (ps.length + 1, ([] : List (ℕ × ℕ))) := by
    rw [segLoop_zeroprev_pos_step q hq]
    obtain ⟨p', hp', heq⟩ := segLoop_pos_run qs' [] q (ps.length + 1 + 1)
      (ps.length + 1) [] hq (fun x hx => hqs x (List.mem_cons_of_mem q hx))
    simp only [List.append_nil] at heq
    rw [heq]
    simp [segLoop]
  have hblast : (ps ++ 0 :: q :: qs').getLast? =
      some ((q :: qs').getLast (by simp)) := by
    rw [List.getLast?_append_cons, List.getLast?_cons_cons,
      List.getLast?_eq_getLast]
  have hbpos : 0 < (q :: qs').getLast (by simp) :=
    hqs _ (List.getLast_mem (by simp))
  simp only [plot_ascending_descending_segments]
  rw [hdiff, hblast]
  simp only []
  rw [if_pos hbpos, key1, key2]
  have hguard : 1 < (ps ++ 0 :: q :: qs').length - (ps.length + 1) := by
    have h2 : 1 ≤ qs'.length := by simpa using hlen
    simp [List.length_append]
    omega
  rw [if_pos hguard]
  have hlength : (ps ++ 0 :: q :: qs').length =
      ps.length + 1 + (q :: qs').length := by
    simp [List.length_append]
    omega
  rw [hlength]
  simp

/-- C8 as stated is false: on `[0, 1, 2, 2, 3, 4, 5]` the diff sequence is
`[1, 1, 0, 1, 1, 1]` (positives, one zero, positives), and the single
reported ascending run is `(3, 6)`, whose start index 3 was reset by the
zero diff: the run claimed by C8 would cover the whole sequence, `(0, 6)`. -/
theorem C8_counterexample :
    plot_ascending_descending_segments [0, 1, 2, 2, 3, 4, 5] =
      some ([(3, 6)], []) ∧
    ([((3 : ℕ), (6 : ℕ))], ([] : List (ℕ × ℕ))) ≠ ([(0, 6)], []) := by
  constructor
  · norm_num [plot_ascending_descending_segments, elevationDiff, segLoop,
      prevNonpos, prevNonneg]
  · decide

/-- Witness for C8 (amended) on `[0, 1, 2, 2, 3, 4, 5]`. -/
theorem C8_zero_diff_resets_start_witness :
    elevationDiff [0, 1, 2, 2, 3, 4, 5] = [1, 1] ++ 0 :: [1, 1, 1] ∧
    plot_ascending_descending_segments [0, 1, 2, 2, 3, 4, 5] =
      some ([(3, 6)], []) :=
  ⟨by norm_num [elevationDiff],
   C8_zero_diff_resets_start [0, 1, 2, 2, 3, 4, 5] [1, 1] [1, 1, 1]
    (by norm_num [elevationDiff]) (by norm_num) (by norm_num) (by norm_num)⟩

/-- The projector returns no value exactly when the full-coverage check
`ceil(y_deg) + r_deg >= 90` fires. -/
lemma gen_projected_circle_none_iff (x y r : ℝ) (n : ℕ) :
    gen_projected_circle x y r n = none ↔ 90 ≤ (⌈y⌉ : ℝ) + r := by
  unfold gen_projected_circle
  split_ifs with h
  · simpa using h
  · simpa using h

/-- A linspace always has exactly the requested number of samples. -/
lemma linspace_length (a b : ℝ) (n : ℕ) : (linspace a b n).length = n := by
  unfold linspace
  split_ifs with h1 h2
  · simp [h1]
  · simp [h2]
  · simp

/-- Concrete evaluation: `linspace 0 (2*pi) 3 = [0, pi, 2*pi]`. -/
lemma linspace_pi_three : linspace 0 (2 * Real.pi) 3 = [0, Real.pi, 2 * Real.pi] := by
  unfold linspace
  norm_num [List.range_succ]

/-- Concrete evaluation of the projector at center `(0, 0)`, radius 5,
3 samples: the non-sentinel branch runs, no point exceeds elevation 90,
and the raw circle `[(5, 0), (-5, 0), (5, 0)]` is returned unchanged —
with azimuth `-5` outside `[0, 360)`. -/
lemma gen_projected_circle_eval :
    gen_projected_circle 0 0 5 3 = some ([5, -5, 5], [0, 0, 0]) := by
  have hcond : ¬ (90 ≤ ((⌈(0 : ℝ)⌉ : ℤ) : ℝ) + 5) := by norm_num
  simp only [gen_projected_circle, if_neg hcond, linspace_pi_three]
  norm_num [reflect_point, Real.cos_pi, Real.sin_pi, Real.cos_two_pi,
    Real.sin_two_pi]

/-- C9: in the sentinel case (`ceil(y) + r >= 90`) `gen_projected_circle`
returns no boundary value at all — the constant-elevation circle is only
drawn — and in the non-sentinel case (and only then) it returns the pair
of sampled sequences, so a caller consuming the return value can never
obtain the sentinel boundary points. -/
theorem C9_sentinel_returns_none : ∀ (x y r : ℝ) (n : ℕ),
    gen_projected_circle x y r n = none ↔ 90 ≤ (⌈y⌉ : ℝ) + r :=
  fun x y r n => gen_projected_circle_none_iff x y r n

/-- C2 amended: the full-coverage sentinel triggers iff
`ceil(y_deg) + r_deg >= 90`; in that case nothing is returned and the
drawn boundary is a circle of `sample_count` points at constant elevation
exactly `90 - radius_deg` — with NO clipping at 0: for `radius_deg > 90`
the drawn elevation is negative, not `max(90 - radius_deg, 0)`. -/
theorem C2_sentinel_circle : ∀ (x y r : ℝ) (n : ℕ),
    (gen_projected_circle x y r n = none ↔ 90 ≤ (⌈y⌉ : ℝ) + r) ∧
    (plot_full_coverage_circle r n).length = n ∧
    ∀ p ∈ plot_full_coverage_circle r n, p.2 = 90 - r := by
  intro x y r n
  refine ⟨gen_projected_circle_none_iff x y r n, ?_, ?_⟩
  · rw [plot_full_coverage_circle, List.length_map, linspace_length]
  · intro p hp
    rw [plot_full_coverage_circle, List.mem_map] at hp
    obtain ⟨t, _ht, rfl⟩ := hp
    rfl

/-- Witness for C2 (amended) at radius 100, 3 samples. -/
theorem C2_sentinel_circle_witness :
    (gen_projected_circle 0 0 100 3 = none ↔ 90 ≤ ((⌈(0 : ℝ)⌉ : ℝ) + 100)) ∧
    (plot_full_coverage_circle (100 : ℝ) 3).length = 3 ∧
    ∀ p ∈ plot_full_coverage_circle (100 : ℝ) 3, p.2 = 90 - 100 :=
  C2_sentinel_circle 0 0 100 3

/-- C2 as stated is false: for radius 100 the drawn full-coverage circle
has elevation `90 - 100 = -10`, not `max(90 - 100, 0) = 0`: the code
performs no clipping at the horizon. -/
theorem C2_counterexample :
    ¬ ∀ p ∈ plot_full_coverage_circle (100 : ℝ) 3, p.2 = max (90 - 100 : ℝ) 0 := by
  intro h
  have hm : ((0 : ℝ), (90 : ℝ) - 100) ∈ plot_full_coverage_circle (100 : ℝ) 3 := by
    rw [plot_full_coverage_circle, linspace_pi_three]
    simp
  have h2 := h (0, 90 - 100) hm
  norm_num at h2

/-- C1 as stated is false: at center `(0, 0)`, radius 5, 3 samples the
non-sentinel branch runs and the returned azimuths are `[5, -5, 5]` —
the azimuth `-5` (at angle pi) lies outside `[0, 360)`: no normalization
is applied on the non-reflected points. -/
theorem C1_counterexample :
    ¬ ∀ pr, gen_projected_circle 0 0 5 3 = some pr →
        (∀ el ∈ pr.2, 0 ≤ el ∧ el ≤ 90) ∧ (∀ az ∈ pr.1, 0 ≤ az ∧ az < 360) := by
  intro h
  have h2 := (h ([5, -5, 5], [0, 0, 0]) gen_projected_circle_eval).2 (-5)
    (by norm_num)
  linarith [h2.1]

/-- C1 amended: in the non-sentinel branch the zenith reflection never
fires (every sampled elevation is at most `y + r ≤ ceil(y) + r < 90`), so
every returned elevation satisfies `y - r ≤ el ≤ 90`, but neither horizon
clipping nor azimuth normalization is applied: the elevation may be
negative (when `r > y`) and the azimuth stays in the raw band
`[x - r, x + r]`, which can leave `[0, 360)`. -/
theorem C1_nonsentinel_bounds : ∀ (x y r : ℝ) (n : ℕ),
    0 ≤ y → y ≤ 90 → 0 ≤ r → 3 ≤ n → (⌈y⌉ : ℝ) + r < 90 →
    ∀ pr, gen_projected_circle x y r n = some pr →
      (∀ el ∈ pr.2, y - r ≤ el ∧ el ≤ 90) ∧
      (∀ az ∈ pr.1, x - r ≤ az ∧ az ≤ x + r) := by
  intro x y r n _hy0 _hy90 hr _hn hlt pr hpr
  have hcond : ¬ (90 ≤ (⌈y⌉ : ℝ) + r) := not_le.mpr hlt
  have hyr : y + r < 90 := by
    have := Int.le_ceil y
    linarith
  have hmap : ((((linspace 0 (2 * Real.pi) n).map
          (fun t => Real.cos t * r + x)).zip
        ((linspace 0 (2 * Real.pi) n).map
          (fun t => Real.sin t * r + y))).map reflect_point) =
      (linspace 0 (2 * Real.pi) n).map
        (fun t => (Real.cos t * r + x, Real.sin t * r + y)) := by
    rw [List.zip_map', List.map_map]
    refine List.map_congr_left ?_
    intro t _ht
    have hsin : Real.sin t * r ≤ r := by nlinarith [Real.sin_le_one t]
    simp only [Function.comp_apply, reflect_point]
    rw [if_neg]
    dsimp only
    push_neg
    linarith
  simp only [gen_projected_circle, if_neg hcond, Option.some.injEq] at hpr
  rw [hmap] at hpr
  subst hpr
  constructor
  · intro el hel
    simp only [List.map_map, List.mem_map, Function.comp_apply] at hel
    obtain ⟨t, _ht, rfl⟩ := hel
    have hs1 := Real.sin_le_one t
    have hs2 := Real.neg_one_le_sin t
    constructor
    · nlinarith
    · nlinarith
  · intro az haz
    simp only [List.map_map, List.mem_map, Function.comp_apply] at haz
    obtain ⟨t, _ht, rfl⟩ := haz
    have hc1 := Real.cos_le_one t
    have hc2 := Real.neg_one_le_cos t
    constructor
    · nlinarith
    · nlinarith

/-- Witness for C1 (amended) at center `(0, 0)`, radius 5, 3 samples. -/
theorem C1_nonsentinel_bounds_witness :
    ((0 : ℝ) ≤ 0 ∧ (0 : ℝ) ≤ 90 ∧ (0 : ℝ) ≤ 5 ∧ 3 ≤ 3 ∧
      ((⌈(0 : ℝ)⌉ : ℝ) + 5 < 90)) ∧
    ((∀ el ∈ [(0 : ℝ), 0, 0], (0 : ℝ) - 5 ≤ el ∧ el ≤ 90) ∧
     (∀ az ∈ [(5 : ℝ), -5, 5], (0 : ℝ) - 5 ≤ az ∧ az ≤ 0 + 5)) := by
  refine ⟨⟨le_refl 0, by norm_num, by norm_num, le_refl 3, by norm_num⟩, ?_⟩
  exact C1_nonsentinel_bounds 0 0 5 3 (le_refl 0) (by norm_num) (by norm_num)
    (le_refl 3) (by norm_num) ([5, -5, 5], [0, 0, 0]) gen_projected_circle_eval

/-- C6 as stated is false: a negative radius (here `-5`) together with
`sample_count = 2 < 3` does not raise anything — `gen_projected_circle`
has no validation and returns a computed boundary. -/
theorem C6_counterexample : gen_projected_circle 0 0 (-5) 2 ≠ none := by
  intro h
  have h2 := (gen_projected_circle_none_iff 0 0 (-5) 2).mp h
  norm_num at h2

/-- C6 amended: no input validation exists anywhere. The projector accepts
negative radii and sample counts below 3 and returns a boundary whenever
the sentinel check fails; the segmentation on a trajectory of length ≤ 1
fails only at the `elevation_diff[-1]` access after the loop (an
`IndexError`, modelled `none`), and the culmination helper on an empty
trajectory fails inside `np.argmax` — neither is a synchronous
`InvalidInput` at entry. -/
theorem C6_no_validation :
    (∀ (x y r : ℝ) (n : ℕ), (⌈y⌉ : ℝ) + r < 90 →
      (gen_projected_circle x y r n).isSome) ∧
    (∀ els : List ℚ, els.length ≤ 1 →
      plot_ascending_descending_segments els = none) ∧
    plot_track_culmination [] = none := by
  refine ⟨?_, ?_, by decide⟩
  · intro x y r n h
    unfold gen_projected_circle
    rw [if_neg (not_le.mpr h)]
    simp
  · intro els h
    rcases els with _ | ⟨e, _ | ⟨f, t⟩⟩
    · simp [plot_ascending_descending_segments, elevationDiff]
    · simp [plot_ascending_descending_segments, elevationDiff]
    · simp at h

/-- Witness for C6 (amended): the projector accepts radius `-5` with
2 samples, and the segmentation of the one-sample trajectory `[5]` is the
modelled `IndexError`. -/
theorem C6_no_validation_witness :
    ((⌈(0 : ℝ)⌉ : ℝ) + (-5) < 90) ∧
    (gen_projected_circle 0 0 (-5) 2).isSome ∧
    plot_ascending_descending_segments [(5 : ℚ)] = none :=
  ⟨by norm_num, C6_no_validation.1 0 0 (-5) 2 (by norm_num),
   C6_no_validation.2.1 [(5 : ℚ)] (by norm_num)⟩
